import Mathlib

/-!
Shallow embedding of `pmon.c`, a periodic power-telemetry sampler for x86
CPUs.  C doubles are modelled as rationals (`ℚ`); machine integers as `Nat`
with explicit masks/shifts where the C code masks; `exit(1)` paths as
`Except Nat`.  The sampling loop's per-tick body (`read_power`) is modelled
as a fold over the range of slot indices the C loop visits, producing the
updated `last` array and the ordered list of `printf` emissions.
-/

namespace Pmon

/-- MSR addresses, from the #defines in pmon.c. -/
def AMD_ENERGY_CORE_MSR : Nat := 0xC001029A
def AMD_ENERGY_PKG_MSR : Nat := 0xC001029B
def AMD_ENERGY_PWR_UNIT_MSR : Nat := 0xC0010299
def AMD_ENERGY_UNIT_MASK : Nat := 0x01F00
def INTEL_ENERGY_PKG_MSR : Nat := 0x611
def INTEL_ENERGY_DRAM_MSR : Nat := 0x619
def INTEL_ENERGY_PWR_UNIT_MSR : Nat := 0x606

/-- `enum processor_type`. -/
inductive ProcessorType where
  | AMD
  | INTEL
  deriving DecidableEq, Repr

/-- The globals of pmon.c that the sampling loop reads (set once by
`identify_cpu`/`main`, never written afterwards). -/
structure Config where
  cpu : ProcessorType
  cpu_count : Nat
  verbose : Nat
  amd_energy_units : Nat
  energy_units : ℚ
  dram_units : ℚ
  scale : ℚ
  pkg_msr : Nat
  core_msr : Nat
  dram_msr : Nat
  deriving DecidableEq, Repr

/-- `identify_cpu`'s AMD branch: globals left at their static-zero values
except the fields it assigns (`pkg_msr`, `core_msr`, the AMD unit exponent
read from the power-unit MSR). -/
def amdConfig (cpu_count verbose amd_units : Nat) (scale : ℚ) : Config :=
  { cpu := .AMD, cpu_count := cpu_count, verbose := verbose,
    amd_energy_units := amd_units, energy_units := 0, dram_units := 0,
    scale := scale, pkg_msr := AMD_ENERGY_PKG_MSR,
    core_msr := AMD_ENERGY_CORE_MSR, dram_msr := 0 }

/-- `identify_cpu`'s Intel branch: `core_msr` stays 0 (static init),
`dram_units` is fixed at `0.5^16`. -/
def intelConfig (cpu_count verbose : Nat) (eu : ℚ) (scale : ℚ) : Config :=
  { cpu := .INTEL, cpu_count := cpu_count, verbose := verbose,
    amd_energy_units := 0, energy_units := eu, dram_units := (1/2) ^ 16,
    scale := scale, pkg_msr := INTEL_ENERGY_PKG_MSR,
    core_msr := 0, dram_msr := INTEL_ENERGY_DRAM_MSR }

/-- `amd_add_power`: `(input * 1000000.0) / (1 << amd_energy_units)`. -/
def amd_add_power (amd_energy_units : Nat) (input : Nat) : ℚ :=
  (input * 1000000 : ℚ) / (2 ^ amd_energy_units : ℚ)

/-- `intel_add_power`: `input * units`. -/
def intel_add_power (input : Nat) (units : ℚ) : ℚ :=
  (input : ℚ) * units

/-- The raw-reading → watts conversion done per slot in `read_power`:
AMD divides the µJ-scaled energy by 1e6; Intel picks `energy_units` for the
package slot and `dram_units` for the extra DRAM slot. -/
def convert (cfg : Config) (core : Nat) (data : Nat) : ℚ :=
  if cfg.cpu = .AMD then
    amd_add_power cfg.amd_energy_units data / 1000000
  else
    intel_add_power data
      (if core = cfg.cpu_count then cfg.energy_units else cfg.dram_units)

/-- One `printf` emission of `read_power`, in order.  Values carried are the
exact rationals passed to the format string. -/
inductive OutItem where
  | num (v : ℚ)        -- `printf("%4.2lf", delta * scale)` (verbose = 0)
  | pkg (v : ℚ)        -- `printf("pkg: %4.2lf", delta * scale)`
  | coreSum (v : ℚ)    -- `printf("  core sum=%4.2lf\n", core_sum * scale)`
  | newline            -- `printf("\n")`
  | dram (v : ℚ)       -- `printf("\tdram: %4.2lf", delta * scale)`
  | rule               -- the `====` separator line
  | coreLabel (n : Nat) -- `printf("core %3d:\t", core)`
  | coreVal (v : ℚ)    -- `printf("%3.2lf\t", delta * scale)`
  deriving DecidableEq, Repr

/-- The `printf` calls of one loop iteration of `read_power`, once past the
first-tick suppression: `delta` is this slot's watt delta, `sum` is the
running `core_sum` BEFORE this iteration's `core_sum += delta`. -/
def coreEmit (cfg : Config) (max core : Nat) (delta sum : ℚ) : List OutItem :=
  if core = cfg.cpu_count then
    (if cfg.verbose = 0 then [.num (delta * cfg.scale)]
     else [.pkg (delta * cfg.scale)])
    ++ (if cfg.verbose ≠ 0 ∧ cfg.amd_energy_units ≠ 0 then
          [.coreSum (sum * cfg.scale)] else [])
    ++ (if core = max - 1 then [.newline] else [])
  else if cfg.verbose ≠ 0 ∧ core = cfg.cpu_count + 1 then
    [.dram (delta * cfg.scale)]
    ++ (if core = max - 1 then [.newline] else [])
  else if cfg.verbose ≠ 0 ∧ cfg.amd_energy_units ≠ 0 then
    (if core = 0 then [.rule] else [])
    ++ (if core % 8 = 0 then [.coreLabel core] else [])
    ++ [.coreVal (delta * cfg.scale)]
    ++ (if core % 8 = 7 ∨ core = cfg.cpu_count - 1 then [.newline] else [])
    ++ (if core = cfg.cpu_count - 1 then [.rule] else [])
  else []

/-- Loop-carried state of `read_power`'s for-loop. -/
structure LoopSt where
  lasts : List ℚ
  core_sum : ℚ
  out : List OutItem
  deriving DecidableEq, Repr

/-- One iteration of `read_power`'s for-loop at slot `core`: read the slot's
register (`raw core`), convert to watts, take the delta against `last`,
store the new `last`; on the first tick with verbose < 2, `continue`
(skipping both the printing and the `core_sum` accumulation). -/
def readCore (cfg : Config) (raw : Nat → Nat) (first : Bool) (max : Nat)
    (st : LoopSt) (core : Nat) : LoopSt :=
  let watts := convert cfg core (raw core)
  let delta := watts - st.lasts.getD core 0
  if first ∧ cfg.verbose < 2 then
    { st with lasts := st.lasts.set core watts }
  else
    { lasts := st.lasts.set core watts,
      core_sum := st.core_sum + delta,
      out := st.out ++ coreEmit cfg max core delta st.core_sum }

/-- `first_core` of `read_power`: `cpu_count` by default, 0 when verbose and
a core MSR exists (AMD). -/
def firstCore (cfg : Config) : Nat :=
  if cfg.verbose ≠ 0 ∧ cfg.core_msr ≠ 0 then 0 else cfg.cpu_count

/-- `max` of `read_power`: `cpu_count + 1` by default; incremented to
`cpu_count + 2` when verbose, no core MSR, and a DRAM MSR exists (Intel). -/
def maxCore (cfg : Config) : Nat :=
  if cfg.verbose ≠ 0 ∧ cfg.core_msr ≠ 0 then cfg.cpu_count + 1
  else if cfg.verbose ≠ 0 ∧ cfg.dram_msr ≠ 0 then cfg.cpu_count + 2
  else cfg.cpu_count + 1

/-- `read_power`: fold the loop body over slot indices
`first_core, ..., max-1`; result is the updated `last` array and the emitted
output.  `raw core` is the 64-bit value the slot's register read returns on
this tick. -/
def read_power (cfg : Config) (raw : Nat → Nat) (lasts : List ℚ)
    (first : Bool) : List ℚ × List OutItem :=
  let fc := firstCore cfg
  let st := (List.range' fc (maxCore cfg - fc)).foldl
    (readCore cfg raw first (maxCore cfg)) ⟨lasts, 0, []⟩
  (st.lasts, st.out)

/-- A whole sampling tick: `read_power` then `first = false`.  The config
(unit scales included) is carried through unchanged — the loop body never
writes it. -/
def tick (raw : Nat → Nat) (cfg : Config) (lasts : List ℚ) (first : Bool) :
    (Config × List ℚ × Bool) × List OutItem :=
  let r := read_power cfg raw lasts first
  ((cfg, r.1, false), r.2)

/-! ## identify_cpu: classification, topology, unit scales -/

/-- The vendor/family/model classification of `identify_cpu`: nested
switches; every `default`/unsupported path is `exit(1)`.  The Intel
per-model switch has only `break` arms, so the model causes no branching. -/
def identify_cpu_check (vendor : String) (family model : Nat) :
    Except Nat ProcessorType :=
  if vendor = "AuthenticAMD" then
    if family = 0x17 then
      if model = 0x8 ∨ model = 0x31 then .ok .AMD else .error 1
    else if family = 0x19 then
      if model = 0x01 ∨ model = 0x30 ∨ model = 0x10 ∨ model = 0x11 ∨
          model = 0xa0 ∨ model = 0x19 then .ok .AMD else .error 1
    else if family = 0x1a then
      if model = 0x02 ∨ model = 0x10 ∨ model = 0x11 then .ok .AMD
      else .error 1
    else .error 1
  else if vendor = "GenuineIntel" then
    if family = 0x6 then .ok .INTEL else .error 1
  else .error 1

/-- `share_count = ((regs[1] >> 8) & 0xff) + 1` from cpuid leaf 0x8000001e. -/
def share_count_of (ebx : Nat) : Nat := ((ebx >>> 8) &&& 0xff) + 1

/-- `cpu_count = sysconf(_SC_NPROCESSORS_CONF) / share_count` (C unsigned
integer division). -/
def cpu_count_of (nprocs ebx : Nat) : Nat := nprocs / share_count_of ebx

/-- `softc = calloc(cpu_count + 1, sizeof(*softc))`: the number of softc
slots the program allocates. -/
def allocSlots (cpu_count : Nat) : Nat := cpu_count + 1

/-- The softc indices `open_msrs` dereferences (`sc = &softc[core]`): every
`core` in `[0, cpu_count + 2)` except the Intel hyperthread-sibling skips
(`cpu == INTEL && core != 0 && core < cpu_count` hits `continue`). -/
def open_msrs_indices (cpu : ProcessorType) (cpu_count : Nat) : List Nat :=
  (List.range (cpu_count + 2)).filter fun core =>
    if cpu_count ≤ core then true
    else decide ¬(cpu = .INTEL ∧ core ≠ 0)

/-- The softc indices `read_power` dereferences on a tick: the loop range. -/
def read_power_indices (cfg : Config) : List Nat :=
  List.range' (firstCore cfg) (maxCore cfg - firstCore cfg)

/-- AMD unit-exponent extraction:
`(data & AMD_ENERGY_UNIT_MASK) >> 8` with mask `0x1F00`. -/
def amd_units_of (data : Nat) : Nat := (data &&& AMD_ENERGY_UNIT_MASK) >>> 8

/-- Intel package/core unit: `pow(0.5, (double)((data >> 8) & 0x1f))`. -/
def intel_energy_units_of (data : Nat) : ℚ :=
  (1/2 : ℚ) ^ ((data >>> 8) &&& 0x1f)

/-- Intel DRAM unit: `pow(0.5, (double)16)`, independent of the register. -/
def intel_dram_units_of (_data : Nat) : ℚ := (1/2 : ℚ) ^ 16

/-! ## main: option loop and interval argument -/

/-- C truncation of a double to `int` (toward zero), as applied by
`int timeo = atof(*argv)`. -/
def cTrunc (q : ℚ) : Int := if 0 ≤ q then ⌊q⌋ else ⌈q⌉

/-- `int timeo = 1; if (*argv) timeo = atof(*argv);` — the positional
interval, parsed as a real number but stored into an `int`. -/
def parse_timeo (arg : Option ℚ) : Int :=
  match arg with
  | none => 1
  | some q => cTrunc q

/-- `scale = 1.0 / (double)timeo`.  (In C, `timeo = 0` yields IEEE `+inf`;
in this rational model `1 / 0 = 0` — both differ from any finite nonzero
claim about the scale.) -/
def main_scale (timeo : Int) : ℚ := 1 / (timeo : ℚ)

/-- The getopt loop of `main`: `'v'` increments `verbose`; any other option
character falls to the `default:` case, which calls `usage()` (a lone
`fprintf` to stderr) and — with no `exit` — lets the loop continue. -/
structure OptResult where
  verbose : Nat
  usagePrinted : Bool
  deriving DecidableEq, Repr

/-- Processing of the option characters getopt hands back, in order. -/
def process_opts (opts : List Char) : OptResult :=
  opts.foldl
    (fun r c =>
      if c = 'v' then { r with verbose := r.verbose + 1 }
      else { r with usagePrinted := true })
    ⟨0, false⟩

/-- `main` up to the sampling loop: option processing (never exits),
interval parsing, scale, then `identify_cpu` (which may `exit(1)`).
The payload is `(verbose, timeo, scale, cpu)` as the loop will see them. -/
def main_setup (opts : List Char) (arg : Option ℚ) (vendor : String)
    (family model : Nat) : Except Nat (Nat × Int × ℚ × ProcessorType) :=
  let r := process_opts opts
  let timeo := parse_timeo arg
  match identify_cpu_check vendor family model with
  | .error e => .error e
  | .ok t => .ok (r.verbose, timeo, main_scale timeo, t)

/-! ## Helper lemmas -/

/-- Shifting right past a shifted mask: `(x &&& (m <<< k)) >>> k = (x >>> k) &&& m`. -/
theorem and_shifted_mask (x m k : Nat) :
    (x &&& (m <<< k)) >>> k = (x >>> k) &&& m := by
  apply Nat.eq_of_testBit_eq
  intro i
  simp only [Nat.testBit_shiftRight, Nat.testBit_and, Nat.testBit_shiftLeft]
  have h1 : k ≤ k + i := Nat.le_add_right k i
  have h2 : k + i - k = i := by omega
  simp [h1, h2]

/-- The getopt fold of `main`, over any starting accumulator. -/
theorem process_opts_foldl (opts : List Char) (r : OptResult) :
    (opts.foldl
        (fun r c =>
          if c = 'v' then { r with verbose := r.verbose + 1 }
          else { r with usagePrinted := true })
        r)
      = ⟨r.verbose + (opts.filter (· = 'v')).length,
         r.usagePrinted || opts.any (· ≠ 'v')⟩ := by
  induction opts generalizing r with
  | nil => simp
  | cons c cs ih =>
    by_cases h : c = 'v' <;>
      · simp [h, ih, Bool.or_assoc, Nat.add_assoc]
        try omega

/-- The per-handle delta an emitted item reports, when it reports one
(`core_sum` lines and decorations carry none). -/
@[simp] def itemDelta : OutItem → Option ℚ
  | .num v => some v
  | .pkg v => some v
  | .dram v => some v
  | .coreVal v => some v
  | _ => none

/-! ## Lemmas about the sampling loop body -/

theorem getD_set_self {l : List ℚ} {i : Nat} (h : i < l.length) (a : ℚ) :
    (l.set i a).getD i 0 = a := by
  simp [List.getD_eq_getElem?_getD, List.getElem?_set_self h]

theorem getD_set_ne {l : List ℚ} {i j : Nat} (h : i ≠ j) (a : ℚ) :
    (l.set i a).getD j 0 = l.getD j 0 := by
  simp [List.getD_eq_getElem?_getD, List.getElem?_set_ne h]

theorem readCore_lasts (cfg : Config) (raw : Nat → Nat) (first : Bool)
    (max : Nat) (st : LoopSt) (core : Nat) :
    (readCore cfg raw first max st core).lasts
      = st.lasts.set core (convert cfg core (raw core)) := by
  unfold readCore
  split <;> rfl

theorem readCore_core_sum (cfg : Config) (raw : Nat → Nat) (first : Bool)
    (max : Nat) (st : LoopSt) (core : Nat) :
    (readCore cfg raw first max st core).core_sum
      = if first ∧ cfg.verbose < 2 then st.core_sum
        else st.core_sum + (convert cfg core (raw core) - st.lasts.getD core 0) := by
  unfold readCore
  split <;> simp_all

theorem readCore_out (cfg : Config) (raw : Nat → Nat) (first : Bool)
    (max : Nat) (st : LoopSt) (core : Nat) :
    (readCore cfg raw first max st core).out
      = st.out ++ (if first ∧ cfg.verbose < 2 then []
          else coreEmit cfg max core
            (convert cfg core (raw core) - st.lasts.getD core 0) st.core_sum) := by
  unfold readCore
  split <;> simp_all

theorem foldl_lasts_length (cfg : Config) (raw : Nat → Nat) (first : Bool)
    (max : Nat) (l : List Nat) (st : LoopSt) :
    (l.foldl (readCore cfg raw first max) st).lasts.length
      = st.lasts.length := by
  induction l generalizing st with
  | nil => rfl
  | cons c cs ih => rw [List.foldl_cons, ih, readCore_lasts, List.length_set]

/-- Slots below the loop range are never written. -/
theorem foldl_range'_lasts_lt (cfg : Config) (raw : Nat → Nat) (first : Bool)
    (max : Nat) (s n : Nat) (st : LoopSt) (i : Nat) (h : i < s) :
    ((List.range' s n).foldl (readCore cfg raw first max) st).lasts.getD i 0
      = st.lasts.getD i 0 := by
  induction n generalizing s st with
  | zero => rfl
  | succ n ih =>
    rw [List.range'_succ, List.foldl_cons, ih (s + 1) _ (by omega)]
    rw [readCore_lasts, getD_set_ne (by omega)]

/-- Slots at or above the end of the loop range are never written. -/
theorem foldl_range'_lasts_ge (cfg : Config) (raw : Nat → Nat) (first : Bool)
    (max : Nat) (s n : Nat) (st : LoopSt) (i : Nat) (h : s + n ≤ i) :
    ((List.range' s n).foldl (readCore cfg raw first max) st).lasts.getD i 0
      = st.lasts.getD i 0 := by
  induction n generalizing s st with
  | zero => rfl
  | succ n ih =>
    rw [List.range'_succ, List.foldl_cons, ih (s + 1) _ (by omega)]
    rw [readCore_lasts, getD_set_ne (by omega)]

/-- Every slot the loop range covers ends up holding the tick's converted
reading. -/
theorem foldl_range'_lasts_getD (cfg : Config) (raw : Nat → Nat) (first : Bool)
    (max : Nat) (s n : Nat) (st : LoopSt) (i : Nat)
    (hi : i < st.lasts.length) (h1 : s ≤ i) (h2 : i < s + n) :
    ((List.range' s n).foldl (readCore cfg raw first max) st).lasts.getD i 0
      = convert cfg i (raw i) := by
  induction n generalizing s st with
  | zero => omega
  | succ n ih =>
    rw [List.range'_succ, List.foldl_cons]
    rcases Nat.eq_or_lt_of_le h1 with heq | hlt
    · subst heq
      rw [foldl_range'_lasts_lt cfg raw first max (s + 1) n _ s (by omega)]
      rw [readCore_lasts, getD_set_self hi]
    · exact ih (s + 1)
        (readCore cfg raw first max st s)
        (by rw [readCore_lasts, List.length_set]; exact hi) hlt (by omega)

/-- Output already emitted survives the rest of the loop. -/
theorem foldl_out_mono (cfg : Config) (raw : Nat → Nat) (first : Bool)
    (max : Nat) (l : List Nat) (st : LoopSt) (x : OutItem) (hx : x ∈ st.out) :
    x ∈ (l.foldl (readCore cfg raw first max) st).out := by
  induction l generalizing st with
  | nil => exact hx
  | cons c cs ih =>
    rw [List.foldl_cons]
    exact ih _ (by rw [readCore_out]; exact List.mem_append_left _ hx)

/-- The first tick with verbose < 2 emits nothing at all. -/
theorem foldl_out_first_silent (cfg : Config) (raw : Nat → Nat)
    (max : Nat) (l : List Nat) (st : LoopSt) (hv : cfg.verbose < 2) :
    (l.foldl (readCore cfg raw true max) st).out = st.out := by
  induction l generalizing st with
  | nil => rfl
  | cons c cs ih =>
    rw [List.foldl_cons, ih, readCore_out]
    simp [hv]

/-- A loop segment none of whose iterations prints leaves the output
unchanged. -/
theorem foldl_out_emit_nil (cfg : Config) (raw : Nat → Nat) (first : Bool)
    (max : Nat) (l : List Nat) (st : LoopSt)
    (h : ∀ c ∈ l, ∀ delta sum, coreEmit cfg max c delta sum = []) :
    (l.foldl (readCore cfg raw first max) st).out = st.out := by
  induction l generalizing st with
  | nil => rfl
  | cons c cs ih =>
    rw [List.foldl_cons, ih _ (fun c' hc' => h c' (List.mem_cons_of_mem _ hc'))]
    rw [readCore_out, h c (List.mem_cons_self c cs)]
    simp

/-- The loop body consults `first` only for the suppression test, which a
verbosity of at least 2 defeats. -/
theorem readCore_first_eq (cfg : Config) (raw : Nat → Nat) (max : Nat)
    (st : LoopSt) (core : Nat) (hv : ¬ cfg.verbose < 2) :
    readCore cfg raw true max st core = readCore cfg raw false max st core := by
  unfold readCore
  simp [hv]

/-- Folds of pointwise-equal step functions agree. -/
theorem foldl_step_congr (f g : LoopSt → Nat → LoopSt)
    (h : ∀ st c, f st c = g st c) (l : List Nat) (st : LoopSt) :
    l.foldl f st = l.foldl g st := by
  induction l generalizing st with
  | nil => rfl
  | cons c cs ih => rw [List.foldl_cons, List.foldl_cons, h, ih]

/-- At verbosity ≥ 2 the first tick is computed and printed exactly like
any later tick. -/
theorem read_power_first_eq (cfg : Config) (raw : Nat → Nat)
    (lasts : List ℚ) (hv : ¬ cfg.verbose < 2) :
    read_power cfg raw lasts true = read_power cfg raw lasts false := by
  have hstep : ∀ st c, readCore cfg raw true (maxCore cfg) st c
      = readCore cfg raw false (maxCore cfg) st c :=
    fun st c => readCore_first_eq cfg raw (maxCore cfg) st c hv
  simp only [read_power]
  rw [foldl_step_congr _ _ hstep]

/-- A non-first AMD tick prints the same report at every nonzero
verbosity: all the report's branch tests only distinguish `verbose == 0`
from `verbose != 0`. -/
theorem read_power_amd_verbose_eq (cc v u : Nat) (s : ℚ) (raw : Nat → Nat)
    (lasts : List ℚ) (hv : v ≠ 0) :
    read_power (amdConfig cc v u s) raw lasts false
      = read_power (amdConfig cc 1 u s) raw lasts false := by
  have hstep : ∀ st c, readCore (amdConfig cc v u s) raw false (cc + 1) st c
      = readCore (amdConfig cc 1 u s) raw false (cc + 1) st c := by
    intro st c
    simp [readCore, coreEmit, convert, amd_add_power, amdConfig, hv]
  have hfc : firstCore (amdConfig cc v u s) = 0 := by
    simp [firstCore, amdConfig, AMD_ENERGY_CORE_MSR, hv]
  have hfc1 : firstCore (amdConfig cc 1 u s) = 0 := by
    simp [firstCore, amdConfig, AMD_ENERGY_CORE_MSR]
  have hmx : maxCore (amdConfig cc v u s) = cc + 1 := by
    simp [maxCore, amdConfig, AMD_ENERGY_CORE_MSR, hv]
  have hmx1 : maxCore (amdConfig cc 1 u s) = cc + 1 := by
    simp [maxCore, amdConfig, AMD_ENERGY_CORE_MSR]
  simp only [read_power, hfc, hfc1, hmx, hmx1, Nat.sub_zero]
  rw [foldl_step_congr _ _ hstep]

/-- The per-core segment of a verbose AMD tick: each slot `c` of the range
appends its table fragment (opening rule at 0, a label on every 8th slot,
the slot's delta against the pre-tick `last`, newlines at row ends, the
closing rule at `cc - 1`), the running `core_sum` accumulates exactly
those deltas, and slots at or past the segment's end stay untouched. -/
theorem amd_seg_spec (cc u : Nat) (s : ℚ) (raw : Nat → Nat)
    (lasts0 : List ℚ) (hu : u ≠ 0) :
    ∀ (n a : Nat), a + n ≤ cc → ∀ (st : LoopSt),
      (∀ c, a ≤ c → st.lasts.getD c 0 = lasts0.getD c 0) →
      (((List.range' a n).foldl
          (readCore (amdConfig cc 1 u s) raw false (cc + 1)) st).out
        = st.out ++ ((List.range' a n).map (fun c =>
            (if c = 0 then [OutItem.rule] else [])
            ++ (if c % 8 = 0 then [OutItem.coreLabel c] else [])
            ++ [OutItem.coreVal ((convert (amdConfig cc 1 u s) c (raw c)
                - lasts0.getD c 0) * s)]
            ++ (if c % 8 = 7 ∨ c = cc - 1 then [OutItem.newline] else [])
            ++ (if c = cc - 1 then [OutItem.rule] else []))).flatten) ∧
      (((List.range' a n).foldl
          (readCore (amdConfig cc 1 u s) raw false (cc + 1)) st).core_sum
        = st.core_sum + ((List.range' a n).map (fun c =>
            convert (amdConfig cc 1 u s) c (raw c) - lasts0.getD c 0)).sum) ∧
      (∀ c, a + n ≤ c →
        ((List.range' a n).foldl
            (readCore (amdConfig cc 1 u s) raw false (cc + 1)) st).lasts.getD c 0
          = lasts0.getD c 0) := by
  intro n
  induction n with
  | zero =>
    intro a ha st hl
    refine ⟨by simp, by simp, fun c hc => hl c (by omega)⟩
  | succ n ih =>
    intro a ha st hl
    have hemit : ∀ delta sum,
        coreEmit (amdConfig cc 1 u s) (cc + 1) a delta sum
          = (if a = 0 then [OutItem.rule] else [])
            ++ (if a % 8 = 0 then [OutItem.coreLabel a] else [])
            ++ [OutItem.coreVal (delta * s)]
            ++ (if a % 8 = 7 ∨ a = cc - 1 then [OutItem.newline] else [])
            ++ (if a = cc - 1 then [OutItem.rule] else []) := by
      intro delta sum
      simp [coreEmit, amdConfig, hu, show ¬ a = cc by omega,
        show ¬ a = cc + 1 by omega]
    have hl1 : ∀ c, a + 1 ≤ c →
        (readCore (amdConfig cc 1 u s) raw false (cc + 1) st a).lasts.getD c 0
          = lasts0.getD c 0 := by
      intro c hc
      rw [readCore_lasts, getD_set_ne (by omega)]
      exact hl c (by omega)
    obtain ⟨ho, hs, hlast⟩ := ih (a + 1) (by omega)
      (readCore (amdConfig cc 1 u s) raw false (cc + 1) st a) hl1
    rw [List.range'_succ]
    refine ⟨?_, ?_, ?_⟩
    · simp only [List.foldl_cons, List.map_cons, List.flatten_cons]
      rw [ho, readCore_out]
      simp only [Bool.false_eq_true, false_and, if_false]
      rw [hl a (le_refl a), hemit, List.append_assoc]
    · simp only [List.foldl_cons, List.map_cons, List.sum_cons]
      rw [hs, readCore_core_sum]
      simp only [Bool.false_eq_true, false_and, if_false]
      rw [hl a (le_refl a), add_assoc]
    · intro c hc
      simp only [List.foldl_cons]
      exact hlast c (by omega)

/-- Every item one loop iteration emits either reports no delta or reports
exactly this iteration's `delta * scale`. -/
theorem coreEmit_itemDelta (cfg : Config) (max core : Nat) (delta sum : ℚ)
    (x : OutItem) (hx : x ∈ coreEmit cfg max core delta sum) :
    itemDelta x = none ∨ itemDelta x = some (delta * cfg.scale) := by
  unfold coreEmit at hx
  split_ifs at hx <;> aesop

/-- The default (verbose 0) tick: one package read, one `%4.2lf` line. -/
theorem read_power_verbose0 (cfg : Config) (raw : Nat → Nat) (lasts : List ℚ)
    (hv : cfg.verbose = 0) :
    read_power cfg raw lasts false
      = (lasts.set cfg.cpu_count (convert cfg cfg.cpu_count (raw cfg.cpu_count)),
         [.num ((convert cfg cfg.cpu_count (raw cfg.cpu_count)
             - lasts.getD cfg.cpu_count 0) * cfg.scale), .newline]) := by
  have hfc : firstCore cfg = cfg.cpu_count := by simp [firstCore, hv]
  have hmx : maxCore cfg = cfg.cpu_count + 1 := by simp [maxCore, hv]
  have hone : cfg.cpu_count + 1 - cfg.cpu_count = 1 := by omega
  have hr : List.range' cfg.cpu_count 1 = [cfg.cpu_count] := rfl
  simp only [read_power, hfc, hmx, hone, hr, List.foldl_cons, List.foldl_nil]
  rw [readCore_out, readCore_lasts]
  simp [coreEmit, hv]

/-! ## Claim theorems -/

/-- C8: with the sharing factor `s` derived as the 8-bit field at bits 8..15
of the topology leaf's EBX plus one, the computed physical-unit count is the
configured logical-processor count divided by `s` (integer division), in
particular identity at `s = 1` and halving at `s = 2`. -/
theorem cpu_count_is_div (p ebx : Nat) :
    cpu_count_of p ebx = p / (((ebx >>> 8) % 2 ^ 8) + 1) ∧
    share_count_of ebx = ((ebx >>> 8) % 2 ^ 8) + 1 ∧
    cpu_count_of p 0 = p ∧
    share_count_of 0 = 1 ∧
    cpu_count_of p 0x100 = p / 2 ∧
    share_count_of 0x100 = 2 := by
  have hmask : ∀ x : Nat, x &&& 0xff = x % 2 ^ 8 := by
    intro x
    have : (0xff : Nat) = 2 ^ 8 - 1 := by norm_num
    rw [this, Nat.and_pow_two_sub_one_eq_mod]
  refine ⟨?_, ?_, ?_, ?_, ?_, ?_⟩
  · unfold cpu_count_of share_count_of
    rw [hmask]
  · unfold share_count_of
    rw [hmask]
  · simp [cpu_count_of, share_count_of]
  · simp [share_count_of]
  · unfold cpu_count_of share_count_of
    rw [hmask]
    norm_num [Nat.shiftRight_eq_div_pow]
  · unfold share_count_of
    rw [hmask]
    norm_num [Nat.shiftRight_eq_div_pow]

/-- C4 counterexample: the interval argument `0.5` is truncated by the
`int timeo` assignment to `0`, so it is not used as the sleep duration, and
the resulting scale is `1/0` (IEEE `+inf` in C, `0` in this rational
model) — not the claimed `2`. -/
theorem interval_half_cex :
    parse_timeo (some (1/2)) = 0 ∧
    (0 : ℚ) ≠ 1/2 ∧
    main_scale (parse_timeo (some (1/2))) ≠ 2 := by
  refine ⟨?_, by norm_num, ?_⟩
  · norm_num [parse_timeo, cTrunc]
  · norm_num [parse_timeo, cTrunc, main_scale]

/-- C4 amended: the positional interval is parsed as a real number but
truncated toward zero into the `int timeo` (default 1); the truncated
integer is what serves as the sleep duration and, when nonzero, as the
reciprocal of the scale; `0.5` truncates to `0` (division by zero for the
scale), `2.5` to `2`, and an interval of `2` yields scale `1/2`. -/
theorem interval_parse_truncates :
    parse_timeo none = 1 ∧
    (∀ q : ℚ, parse_timeo (some q) = cTrunc q) ∧
    parse_timeo (some (1/2)) = 0 ∧
    parse_timeo (some (5/2)) = 2 ∧
    main_scale (parse_timeo (some 2)) = 1/2 ∧
    (∀ t : Int, t ≠ 0 → main_scale t * t = 1) := by
  refine ⟨rfl, fun q => rfl, ?_, ?_, ?_, fun t ht => ?_⟩
  · norm_num [parse_timeo, cTrunc]
  · norm_num [parse_timeo, cTrunc]
  · norm_num [parse_timeo, cTrunc, main_scale]
  · have : (t : ℚ) ≠ 0 := Int.cast_ne_zero.mpr ht
    field_simp [main_scale]

/-- C10: an unrecognized option character only sets the usage-printed flag;
`main` never exits in the option loop and proceeds to CPU identification
and the sampling loop exactly as if the bad option had been absent (same
verbose count, same interval, same scale, same classification outcome). -/
theorem bad_option_no_exit :
    (∀ opts arg vendor family model,
      main_setup opts arg vendor family model
        = main_setup (opts.filter (· = 'v')) arg vendor family model) ∧
    (∀ opts, (process_opts opts).verbose = (opts.filter (· = 'v')).length) ∧
    (∀ opts, (process_opts opts).usagePrinted = opts.any (· ≠ 'v')) ∧
    (∀ opts arg vendor family model e,
      main_setup opts arg vendor family model = .error e ↔
        identify_cpu_check vendor family model = .error e) := by
  have hverb : ∀ opts, (process_opts opts).verbose
      = (opts.filter (· = 'v')).length := by
    intro opts
    simp [process_opts, process_opts_foldl]
  refine ⟨fun opts arg vendor family model => ?_, hverb, fun opts => ?_,
    fun opts arg vendor family model e => ?_⟩
  · unfold main_setup
    cases identify_cpu_check vendor family model with
    | error e => simp
    | ok t =>
      simp only [hverb]
      simp [List.filter_filter]
  · unfold process_opts
    rw [process_opts_foldl]
    simp [List.any_eq_true, decide_eq_true_eq]
  · unfold main_setup
    cases h : identify_cpu_check vendor family model with
    | error e' => simp [h]
    | ok t => simp [h]

/-- C2, at the failing inputs: `open_msrs` dereferences `softc[cpu_count+1]`
for every vendor and every `cpu_count`, and a verbose Intel tick does the
same, while `calloc` only provided `cpu_count + 1` slots (indices
`0..cpu_count`) — the access index is NOT strictly below the allocation. -/
theorem softc_oob_access :
    (∀ cpu cc, (cc + 1) ∈ open_msrs_indices cpu cc ∧ allocSlots cc ≤ cc + 1) ∧
    (∀ cc eu s, (cc + 1) ∈ read_power_indices (intelConfig cc 1 eu s)) := by
  constructor
  · intro cpu cc
    constructor
    · unfold open_msrs_indices
      rw [List.mem_filter]
      constructor
      · exact List.mem_range.mpr (by omega)
      · simp
    · simp [allocSlots]
  · intro cc eu s
    unfold read_power_indices firstCore maxCore intelConfig
    simp [INTEL_ENERGY_DRAM_MSR, List.mem_range']

/-- C7: the unit scales come from a single power-unit register value read at
startup — AMD keeps the 5-bit field at bits 8..12 verbatim (as the divisor
exponent `amd_add_power` uses), Intel computes `0.5^field` and fixes the
DRAM unit at `0.5^16` whatever the register holds — and a sampling tick
carries the whole configuration through unchanged, so nothing is ever
recomputed during the run. -/
theorem unit_scale_startup :
    (∀ data, amd_units_of data = (data >>> 8) % 2 ^ 5) ∧
    (∀ u input, amd_add_power u input = (input * 10 ^ 6 : ℚ) / 2 ^ u) ∧
    (∀ data, intel_energy_units_of data = (1/2 : ℚ) ^ ((data >>> 8) % 2 ^ 5)) ∧
    (∀ d1 d2, intel_dram_units_of d1 = intel_dram_units_of d2) ∧
    (∀ data, intel_dram_units_of data = (1/2 : ℚ) ^ 16) ∧
    (∀ raw cfg lasts first, ((tick raw cfg lasts first).1).1 = cfg) := by
  have hmask5 : ∀ x : Nat, x &&& 0x1f = x % 2 ^ 5 := by
    intro x
    have : (0x1f : Nat) = 2 ^ 5 - 1 := by norm_num
    rw [this, Nat.and_pow_two_sub_one_eq_mod]
  refine ⟨fun data => ?_, fun u input => ?_, fun data => ?_,
    fun d1 d2 => rfl, fun data => rfl, fun raw cfg lasts first => rfl⟩
  · unfold amd_units_of AMD_ENERGY_UNIT_MASK
    have h : (0x01F00 : Nat) = 0x1f <<< 8 := by norm_num [Nat.shiftLeft_eq]
    rw [h, and_shifted_mask, hmask5]
  · norm_num [amd_add_power]
  · unfold intel_energy_units_of
    rw [hmask5]

/-- C6: `identify_cpu` accepts exactly AMD family/model pairs on the
explicit allow-list for families 0x17, 0x19, 0x1a (model 0x30 of family
0x19 accepted, model 0x02 of family 0x19 rejected with exit status 1) and
Intel family 0x6 with any model; every other vendor, family, or AMD
family+model combination exits with status 1. -/
theorem identify_cpu_classification :
    identify_cpu_check "AuthenticAMD" 0x19 0x30 = .ok .AMD ∧
    identify_cpu_check "AuthenticAMD" 0x19 0x02 = .error 1 ∧
    (∀ model, identify_cpu_check "GenuineIntel" 0x6 model = .ok .INTEL) ∧
    (∀ vendor family model,
      identify_cpu_check vendor family model = .error 1 ∨
      ∃ t, identify_cpu_check vendor family model = .ok t) ∧
    (∀ vendor family model,
      (∃ t, identify_cpu_check vendor family model = .ok t) ↔
        ((vendor = "AuthenticAMD" ∧
            ((family = 0x17 ∧ (model = 0x8 ∨ model = 0x31)) ∨
             (family = 0x19 ∧ (model = 0x01 ∨ model = 0x30 ∨ model = 0x10 ∨
                model = 0x11 ∨ model = 0xa0 ∨ model = 0x19)) ∨
             (family = 0x1a ∧ (model = 0x02 ∨ model = 0x10 ∨ model = 0x11)))) ∨
          (vendor = "GenuineIntel" ∧ family = 0x6))) := by
  refine ⟨by rfl, by rfl, fun model => ?_, fun vendor family model => ?_,
    fun vendor family model => ?_⟩
  · simp [identify_cpu_check]
  · unfold identify_cpu_check
    split_ifs <;> simp
  · unfold identify_cpu_check
    split_ifs <;> simp_all

/-- C1: over two consecutive ticks reading `r1` then `r2` at a handle, the
loop body stores `f(r1)` after the first tick and `f(r2)` after the second;
every delta the second tick reports for that handle — whatever the
verbosity — equals `scale * (f(r2) - f(r1))`, and that value is actually
emitted: as the package line at the package slot, as the `dram:` field at
the DRAM slot on a verbose tick, and as a core row at a core slot on a
verbose AMD tick; `f` is exactly the vendor formula (AMD:
`(raw * 10^6 / 2^amd_energy_units) / 10^6`; Intel: `raw * energy_units`
for the package slot, `raw * dram_units` for the DRAM slot); and on the
default verbose-0 path the whole second tick prints exactly the package
delta. -/
theorem two_tick_reported_delta (cfg : Config) (raw1 raw2 : Nat → Nat)
    (first : Bool) (max1 max2 : Nat) (st : LoopSt) (core : Nat)
    (h : core < st.lasts.length) :
    ((readCore cfg raw1 first max1 st core).lasts.getD core 0
        = convert cfg core (raw1 core)) ∧
    ((readCore cfg raw2 false max2
          (readCore cfg raw1 first max1 st core) core).lasts.getD core 0
        = convert cfg core (raw2 core)) ∧
    (∀ x ∈ (readCore cfg raw2 false max2
          { readCore cfg raw1 first max1 st core with out := [] } core).out,
      itemDelta x = none ∨
      itemDelta x = some (cfg.scale *
        (convert cfg core (raw2 core) - convert cfg core (raw1 core)))) ∧
    (core = cfg.cpu_count →
      OutItem.num (cfg.scale *
          (convert cfg core (raw2 core) - convert cfg core (raw1 core)))
        ∈ (readCore cfg raw2 false max2
            { readCore cfg raw1 first max1 st core with out := [] } core).out ∨
      OutItem.pkg (cfg.scale *
          (convert cfg core (raw2 core) - convert cfg core (raw1 core)))
        ∈ (readCore cfg raw2 false max2
            { readCore cfg raw1 first max1 st core with out := [] } core).out) ∧
    (cfg.verbose ≠ 0 → core = cfg.cpu_count + 1 →
      OutItem.dram (cfg.scale *
          (convert cfg core (raw2 core) - convert cfg core (raw1 core)))
        ∈ (readCore cfg raw2 false max2
            { readCore cfg raw1 first max1 st core with out := [] } core).out) ∧
    (cfg.verbose ≠ 0 → cfg.amd_energy_units ≠ 0 → core ≠ cfg.cpu_count →
      core ≠ cfg.cpu_count + 1 →
      OutItem.coreVal (cfg.scale *
          (convert cfg core (raw2 core) - convert cfg core (raw1 core)))
        ∈ (readCore cfg raw2 false max2
            { readCore cfg raw1 first max1 st core with out := [] } core).out) ∧
    (cfg.cpu = .AMD →
      convert cfg core (raw1 core)
        = ((raw1 core : ℚ) * 10 ^ 6 / 2 ^ cfg.amd_energy_units) / 10 ^ 6) ∧
    (cfg.cpu = .INTEL → core = cfg.cpu_count →
      convert cfg core (raw1 core) = (raw1 core : ℚ) * cfg.energy_units) ∧
    (cfg.cpu = .INTEL → core ≠ cfg.cpu_count →
      convert cfg core (raw1 core) = (raw1 core : ℚ) * cfg.dram_units) ∧
    (∀ lasts : List ℚ, cfg.verbose = 0 → cfg.cpu_count < lasts.length →
      (read_power cfg raw2 (read_power cfg raw1 lasts false).1 false).2
        = [.num (cfg.scale * (convert cfg cfg.cpu_count (raw2 cfg.cpu_count)
            - convert cfg cfg.cpu_count (raw1 cfg.cpu_count))), .newline]) := by
  have hset : ∀ (rawa : Nat → Nat) (fa : Bool) (ma : Nat) (sta : LoopSt),
      core < sta.lasts.length →
      (readCore cfg rawa fa ma sta core).lasts.getD core 0
        = convert cfg core (rawa core) := by
    intro rawa fa ma sta hlt
    rw [readCore_lasts, getD_set_self hlt]
  have hlen1 : core < (readCore cfg raw1 first max1 st core).lasts.length := by
    rw [readCore_lasts, List.length_set]
    exact h
  have hout : (readCore cfg raw2 false max2
        { readCore cfg raw1 first max1 st core with out := [] } core).out
      = coreEmit cfg max2 core
          (convert cfg core (raw2 core) - convert cfg core (raw1 core))
          (readCore cfg raw1 first max1 st core).core_sum := by
    rw [readCore_out]
    simp only [Bool.false_eq_true, false_and, if_false, List.nil_append]
    have hs : ({ readCore cfg raw1 first max1 st core with out := [] }
        : LoopSt).lasts.getD core 0 = convert cfg core (raw1 core) :=
      hset raw1 first max1 st h
    rw [hs]
  refine ⟨hset raw1 first max1 st h, hset raw2 false max2 _ hlen1,
    ?_, ?_, ?_, ?_, ?_, ?_, ?_, ?_⟩
  · intro x hx
    rw [hout] at hx
    rcases coreEmit_itemDelta cfg max2 core _ _ x hx with hnone | hval
    · exact Or.inl hnone
    · right
      rw [hval, mul_comm]
  · intro hcc
    rw [hout]
    unfold coreEmit
    rw [if_pos hcc, mul_comm]
    by_cases hv0 : cfg.verbose = 0
    · left
      rw [if_pos hv0]
      exact List.mem_append_left _ (List.mem_append_left _ (by simp))
    · right
      rw [if_neg hv0]
      exact List.mem_append_left _ (List.mem_append_left _ (by simp))
  · intro hv hcc1
    rw [hout]
    unfold coreEmit
    rw [if_neg (by omega : ¬ core = cfg.cpu_count), if_pos ⟨hv, hcc1⟩,
      mul_comm]
    exact List.mem_append_left _ (by simp)
  · intro hv hu hne hne1
    rw [hout]
    unfold coreEmit
    rw [if_neg hne, if_neg (fun hc => hne1 hc.2), if_pos ⟨hv, hu⟩, mul_comm]
    exact List.mem_append_left _ (List.mem_append_left _
      (List.mem_append_right _ (by simp)))
  · intro hamd
    norm_num [convert, hamd, amd_add_power]
  · intro hintel heq
    simp [convert, hintel, heq, intel_add_power]
  · intro hintel hne
    simp [convert, hintel, hne, intel_add_power]
  · intro lasts hv hlen
    rw [read_power_verbose0 cfg raw1 lasts hv]
    rw [read_power_verbose0 cfg raw2 _ hv]
    rw [getD_set_self hlen]
    simp [mul_comm]

/-- C1 witness: an Intel configuration at verbosity 1, the DRAM slot
(handle 3 of a 2-physical-unit box), raw readings 1000 then 3000 over two
ticks — the DRAM report of the second tick is actually emitted. -/
theorem two_tick_reported_delta_holds :
    ((readCore (intelConfig 2 1 ((1/2 : ℚ)^10) 1) (fun _ => 1000) false 4
        ⟨[0, 0, 0, 0, 0], 0, []⟩ 3).lasts.getD 3 0
      = convert (intelConfig 2 1 ((1/2 : ℚ)^10) 1) 3 1000) ∧
    ((readCore (intelConfig 2 1 ((1/2 : ℚ)^10) 1) (fun _ => 3000) false 4
        (readCore (intelConfig 2 1 ((1/2 : ℚ)^10) 1) (fun _ => 1000) false 4
          ⟨[0, 0, 0, 0, 0], 0, []⟩ 3) 3).lasts.getD 3 0
      = convert (intelConfig 2 1 ((1/2 : ℚ)^10) 1) 3 3000) ∧
    (∀ x ∈ (readCore (intelConfig 2 1 ((1/2 : ℚ)^10) 1) (fun _ => 3000) false 4
        { readCore (intelConfig 2 1 ((1/2 : ℚ)^10) 1) (fun _ => 1000) false 4
            ⟨[0, 0, 0, 0, 0], 0, []⟩ 3 with out := [] } 3).out,
      itemDelta x = none ∨
      itemDelta x = some ((intelConfig 2 1 ((1/2 : ℚ)^10) 1).scale *
        (convert (intelConfig 2 1 ((1/2 : ℚ)^10) 1) 3 3000
          - convert (intelConfig 2 1 ((1/2 : ℚ)^10) 1) 3 1000))) ∧
    ((3 : Nat) = (intelConfig 2 1 ((1/2 : ℚ)^10) 1).cpu_count →
      OutItem.num ((intelConfig 2 1 ((1/2 : ℚ)^10) 1).scale *
          (convert (intelConfig 2 1 ((1/2 : ℚ)^10) 1) 3 3000
            - convert (intelConfig 2 1 ((1/2 : ℚ)^10) 1) 3 1000))
        ∈ (readCore (intelConfig 2 1 ((1/2 : ℚ)^10) 1) (fun _ => 3000) false 4
            { readCore (intelConfig 2 1 ((1/2 : ℚ)^10) 1) (fun _ => 1000) false 4
                ⟨[0, 0, 0, 0, 0], 0, []⟩ 3 with out := [] } 3).out ∨
      OutItem.pkg ((intelConfig 2 1 ((1/2 : ℚ)^10) 1).scale *
          (convert (intelConfig 2 1 ((1/2 : ℚ)^10) 1) 3 3000
            - convert (intelConfig 2 1 ((1/2 : ℚ)^10) 1) 3 1000))
        ∈ (readCore (intelConfig 2 1 ((1/2 : ℚ)^10) 1) (fun _ => 3000) false 4
            { readCore (intelConfig 2 1 ((1/2 : ℚ)^10) 1) (fun _ => 1000) false 4
                ⟨[0, 0, 0, 0, 0], 0, []⟩ 3 with out := [] } 3).out) ∧
    ((intelConfig 2 1 ((1/2 : ℚ)^10) 1).verbose ≠ 0 →
      (3 : Nat) = (intelConfig 2 1 ((1/2 : ℚ)^10) 1).cpu_count + 1 →
      OutItem.dram ((intelConfig 2 1 ((1/2 : ℚ)^10) 1).scale *
          (convert (intelConfig 2 1 ((1/2 : ℚ)^10) 1) 3 3000
            - convert (intelConfig 2 1 ((1/2 : ℚ)^10) 1) 3 1000))
        ∈ (readCore (intelConfig 2 1 ((1/2 : ℚ)^10) 1) (fun _ => 3000) false 4
            { readCore (intelConfig 2 1 ((1/2 : ℚ)^10) 1) (fun _ => 1000) false 4
                ⟨[0, 0, 0, 0, 0], 0, []⟩ 3 with out := [] } 3).out) ∧
    ((intelConfig 2 1 ((1/2 : ℚ)^10) 1).verbose ≠ 0 →
      (intelConfig 2 1 ((1/2 : ℚ)^10) 1).amd_energy_units ≠ 0 →
      (3 : Nat) ≠ (intelConfig 2 1 ((1/2 : ℚ)^10) 1).cpu_count →
      (3 : Nat) ≠ (intelConfig 2 1 ((1/2 : ℚ)^10) 1).cpu_count + 1 →
      OutItem.coreVal ((intelConfig 2 1 ((1/2 : ℚ)^10) 1).scale *
          (convert (intelConfig 2 1 ((1/2 : ℚ)^10) 1) 3 3000
            - convert (intelConfig 2 1 ((1/2 : ℚ)^10) 1) 3 1000))
        ∈ (readCore (intelConfig 2 1 ((1/2 : ℚ)^10) 1) (fun _ => 3000) false 4
            { readCore (intelConfig 2 1 ((1/2 : ℚ)^10) 1) (fun _ => 1000) false 4
                ⟨[0, 0, 0, 0, 0], 0, []⟩ 3 with out := [] } 3).out) ∧
    ((intelConfig 2 1 ((1/2 : ℚ)^10) 1).cpu = .AMD →
      convert (intelConfig 2 1 ((1/2 : ℚ)^10) 1) 3 1000
        = (((1000 : Nat) : ℚ) * 10 ^ 6
            / 2 ^ (intelConfig 2 1 ((1/2 : ℚ)^10) 1).amd_energy_units) / 10 ^ 6) ∧
    ((intelConfig 2 1 ((1/2 : ℚ)^10) 1).cpu = .INTEL →
      (3 : Nat) = (intelConfig 2 1 ((1/2 : ℚ)^10) 1).cpu_count →
      convert (intelConfig 2 1 ((1/2 : ℚ)^10) 1) 3 1000
        = ((1000 : Nat) : ℚ) * (intelConfig 2 1 ((1/2 : ℚ)^10) 1).energy_units) ∧
    ((intelConfig 2 1 ((1/2 : ℚ)^10) 1).cpu = .INTEL →
      (3 : Nat) ≠ (intelConfig 2 1 ((1/2 : ℚ)^10) 1).cpu_count →
      convert (intelConfig 2 1 ((1/2 : ℚ)^10) 1) 3 1000
        = ((1000 : Nat) : ℚ) * (intelConfig 2 1 ((1/2 : ℚ)^10) 1).dram_units) ∧
    (∀ lasts : List ℚ, (intelConfig 2 1 ((1/2 : ℚ)^10) 1).verbose = 0 →
      (intelConfig 2 1 ((1/2 : ℚ)^10) 1).cpu_count < lasts.length →
      (read_power (intelConfig 2 1 ((1/2 : ℚ)^10) 1) (fun _ => 3000)
          (read_power (intelConfig 2 1 ((1/2 : ℚ)^10) 1) (fun _ => 1000)
            lasts false).1 false).2
        = [.num ((intelConfig 2 1 ((1/2 : ℚ)^10) 1).scale *
            (convert (intelConfig 2 1 ((1/2 : ℚ)^10) 1) 2 3000
              - convert (intelConfig 2 1 ((1/2 : ℚ)^10) 1) 2 1000)),
           .newline]) :=
  two_tick_reported_delta (intelConfig 2 1 ((1/2 : ℚ)^10) 1)
    (fun _ => 1000) (fun _ => 3000) false 4 4
    ⟨[0, 0, 0, 0, 0], 0, []⟩ 3 (by decide)

/-- A silent first tick, both vendors, any verbosity below 2. -/
theorem read_power_first_silent (cfg : Config) (raw : Nat → Nat)
    (lasts : List ℚ) (hv : cfg.verbose < 2) :
    (read_power cfg raw lasts true).2 = [] := by
  unfold read_power
  exact foldl_out_first_silent cfg raw (maxCore cfg)
    (List.range' (firstCore cfg) (maxCore cfg - firstCore cfg))
    ⟨lasts, 0, []⟩ hv

/-- C5: every `softc.last` starts at the calloc zero, so on the very first
tick nothing is printed when verbosity < 2 (either vendor), while with
verbosity ≥ 2 the tick is emitted and its package line carries
`f(initial raw reading) * scale`. -/
theorem first_tick_output (cc v u : Nat) (eu s : ℚ) (raw : Nat → Nat) :
    (v < 2 →
      (read_power (amdConfig cc v u s) raw
          (List.replicate (cc + 2) 0) true).2 = [] ∧
      (read_power (intelConfig cc v eu s) raw
          (List.replicate (cc + 2) 0) true).2 = []) ∧
    (2 ≤ v →
      OutItem.pkg (convert (amdConfig cc v u s) cc (raw cc) * s)
        ∈ (read_power (amdConfig cc v u s) raw
            (List.replicate (cc + 2) 0) true).2 ∧
      OutItem.pkg (convert (intelConfig cc v eu s) cc (raw cc) * s)
        ∈ (read_power (intelConfig cc v eu s) raw
            (List.replicate (cc + 2) 0) true).2) := by
  constructor
  · intro hv
    exact ⟨read_power_first_silent _ raw _ hv,
      read_power_first_silent _ raw _ hv⟩
  · intro hv
    have hv0 : v ≠ 0 := by omega
    constructor
    · -- AMD: cores 0..cc-1 first, then the package slot cc emits the line
      set cfg := amdConfig cc v u s with hcfg
      have hfc : firstCore cfg = 0 := by
        simp [firstCore, hcfg, amdConfig, AMD_ENERGY_CORE_MSR, hv0]
      have hmx : maxCore cfg = cc + 1 := by
        simp [maxCore, hcfg, amdConfig, AMD_ENERGY_CORE_MSR, hv0]
      unfold read_power
      rw [hfc, hmx]
      simp only [Nat.sub_zero]
      rw [List.range'_1_concat, List.foldl_append, List.foldl_cons,
        List.foldl_nil]
      rw [readCore_out]
      have hnosup : ¬ (true = true ∧ cfg.verbose < 2) := by
        simp [hcfg, amdConfig]
        omega
      rw [if_neg hnosup]
      apply List.mem_append_right
      simp only [Nat.zero_add]
      have hd : ((List.range' 0 cc).foldl
          (readCore cfg raw true (cc + 1))
          ⟨List.replicate (cc + 2) 0, 0, []⟩).lasts.getD cc 0 = 0 := by
        rw [foldl_range'_lasts_ge cfg raw true (cc + 1) 0 cc _ _ (by omega)]
        simp [List.getD_eq_getElem?_getD, List.getElem?_replicate,
          Nat.lt_add_of_pos_right]
      rw [hd, sub_zero]
      simp only [hcfg]
      simp [coreEmit, amdConfig, hv0]
    · -- Intel: the package slot is the first of the two slots visited
      set cfg := intelConfig cc v eu s with hcfg
      have hfc : firstCore cfg = cc := by
        simp [firstCore, hcfg, intelConfig]
      have hmx : maxCore cfg = cc + 2 := by
        simp [maxCore, hcfg, intelConfig, INTEL_ENERGY_DRAM_MSR, hv0]
      unfold read_power
      have h2 : cc + 2 - cc = 2 := by omega
      have hr : List.range' cc 2 = [cc, cc + 1] := rfl
      simp only [hfc, hmx, h2, hr, List.foldl_cons, List.foldl_nil]
      rw [readCore_out]
      apply List.mem_append_left
      rw [readCore_out]
      have hnosup : ¬ (true = true ∧ cfg.verbose < 2) := by
        simp [hcfg, intelConfig]
        omega
      rw [if_neg hnosup]
      apply List.mem_append_right
      simp only [hcfg]
      simp [coreEmit, intelConfig, hv0, List.getD_eq_getElem?_getD,
        List.getElem?_replicate, Nat.lt_add_of_pos_right]

/-- C9: with an AMD unit exponent of zero, a verbose non-first tick prints
only the package line (no `core sum=` suffix, no per-core table, no rule
lines), even though every per-core register is still read and every
slot's stored last value is still updated to the tick's converted
reading. -/
theorem amd_zero_units_gating (cc v : Nat) (s : ℚ) (lasts : List ℚ)
    (raw : Nat → Nat) (hv : v ≠ 0) (hlen : lasts.length = cc + 2) :
    (read_power (amdConfig cc v 0 s) raw lasts false).2
      = [.pkg ((convert (amdConfig cc v 0 s) cc (raw cc)
          - lasts.getD cc 0) * s), .newline] ∧
    (∀ i, i ≤ cc →
      (read_power (amdConfig cc v 0 s) raw lasts false).1.getD i 0
        = convert (amdConfig cc v 0 s) i (raw i)) := by
  set cfg := amdConfig cc v 0 s with hcfg
  have hfc : firstCore cfg = 0 := by
    simp [firstCore, hcfg, amdConfig, AMD_ENERGY_CORE_MSR, hv]
  have hmx : maxCore cfg = cc + 1 := by
    simp [maxCore, hcfg, amdConfig, AMD_ENERGY_CORE_MSR, hv]
  have hseg : ∀ c ∈ List.range' 0 cc, ∀ delta sum,
      coreEmit cfg (cc + 1) c delta sum = [] := by
    intro c hc delta sum
    have hclt : c < cc := by
      rcases List.mem_range'.mp hc with ⟨i, hi, hci⟩
      omega
    simp [coreEmit, hcfg, amdConfig, show ¬ c = cc by omega,
      show ¬ c = cc + 1 by omega]
  constructor
  · unfold read_power
    rw [hfc, hmx]
    simp only [Nat.sub_zero]
    rw [List.range'_1_concat, List.foldl_append, List.foldl_cons,
      List.foldl_nil]
    rw [readCore_out]
    simp only [Nat.zero_add]
    rw [foldl_out_emit_nil cfg raw false (cc + 1) (List.range' 0 cc) _ hseg]
    rw [foldl_range'_lasts_ge cfg raw false (cc + 1) 0 cc _ cc (by omega)]
    simp [coreEmit, hcfg, amdConfig, hv]
  · intro i hi
    unfold read_power
    rw [hfc, hmx]
    simp only [Nat.sub_zero]
    exact foldl_range'_lasts_getD cfg raw false (cc + 1) 0 (cc + 1)
      ⟨lasts, 0, []⟩ i (by simp [hlen]; omega) (by omega) (by omega)

/-- C9 witness: four cores, verbosity 1, unit exponent zero. -/
theorem amd_zero_units_gating_holds :
    ((read_power (amdConfig 4 1 0 1) (fun c => 100 * (c + 1))
        (List.replicate 6 0) false).2
      = [.pkg ((convert (amdConfig 4 1 0 1) 4 (100 * (4 + 1))
          - (List.replicate 6 (0:ℚ)).getD 4 0) * 1), .newline] ∧
    (∀ i, i ≤ 4 →
      (read_power (amdConfig 4 1 0 1) (fun c => 100 * (c + 1))
          (List.replicate 6 0) false).1.getD i 0
        = convert (amdConfig 4 1 0 1) i (100 * (i + 1)))) :=
  amd_zero_units_gating 4 1 1 (List.replicate 6 0)
    (fun c => 100 * (c + 1)) (by decide) (by decide)

/-- C3 counterexample: on an AMD machine (4 physical units, unit exponent
16) at verbosity exactly 1, a non-first tick prints the per-core table —
its rule line is in the output, which therefore does not consist of the
package line alone. -/
theorem verbosity1_core_table_cex :
    OutItem.rule ∈ (read_power (amdConfig 4 1 16 1) (fun c => 65536 * (c + 1))
        (List.replicate 6 0) false).2 := by
  decide

/-- C3 amended: at verbosity exactly 1 an Intel tick prints exactly the
package line with the dram field appended and one newline; on AMD (with a
nonzero stored unit exponent) a verbosity-1 tick already prints the full
per-core table — opening rule line, core rows of 8 with `core N:` labels,
closing rule line — followed by the package line with the core-sum suffix
(the sum of the per-core deltas) and a newline, because table and suffix
are gated on `verbose` being nonzero, not on verbosity ≥ 2; every
verbosity ≥ 1 prints an identical non-first tick, and verbosity ≥ 2
differs only by also emitting the first (baseline) tick, which
verbosity 1 suppresses. -/
theorem verbosity1_report (cc u v : Nat) (eu s : ℚ) (lasts : List ℚ)
    (raw : Nat → Nat) (hu : u ≠ 0) :
    ((read_power (intelConfig cc 1 eu s) raw lasts false).2
      = [.pkg ((convert (intelConfig cc 1 eu s) cc (raw cc)
            - lasts.getD cc 0) * s),
         .dram ((convert (intelConfig cc 1 eu s) (cc + 1) (raw (cc + 1))
            - lasts.getD (cc + 1) 0) * s),
         .newline]) ∧
    ((read_power (amdConfig cc 1 u s) raw lasts false).2
      = ((List.range' 0 cc).map (fun c =>
            (if c = 0 then [OutItem.rule] else [])
            ++ (if c % 8 = 0 then [OutItem.coreLabel c] else [])
            ++ [OutItem.coreVal ((convert (amdConfig cc 1 u s) c (raw c)
                - lasts.getD c 0) * s)]
            ++ (if c % 8 = 7 ∨ c = cc - 1 then [OutItem.newline] else [])
            ++ (if c = cc - 1 then [OutItem.rule] else []))).flatten
        ++ [.pkg ((convert (amdConfig cc 1 u s) cc (raw cc)
              - lasts.getD cc 0) * s),
            .coreSum ((((List.range' 0 cc).map (fun c =>
                convert (amdConfig cc 1 u s) c (raw c)
                  - lasts.getD c 0)).sum) * s),
            .newline]) ∧
    (v ≠ 0 →
      read_power (amdConfig cc v u s) raw lasts false
        = read_power (amdConfig cc 1 u s) raw lasts false) ∧
    (2 ≤ v →
      read_power (amdConfig cc v u s) raw lasts true
        = read_power (amdConfig cc v u s) raw lasts false) ∧
    ((read_power (amdConfig cc 1 u s) raw lasts true).2 = []) := by
  refine ⟨?_, ?_, ?_, ?_, ?_⟩
  · set cfg := intelConfig cc 1 eu s with hcfg
    have hfc : firstCore cfg = cc := by
      simp [firstCore, hcfg, intelConfig]
    have hmx : maxCore cfg = cc + 2 := by
      simp [maxCore, hcfg, intelConfig, INTEL_ENERGY_DRAM_MSR]
    unfold read_power
    have h2 : cc + 2 - cc = 2 := by omega
    have hr : List.range' cc 2 = [cc, cc + 1] := rfl
    simp only [hfc, hmx, h2, hr, List.foldl_cons, List.foldl_nil]
    rw [readCore_out, readCore_out, readCore_lasts]
    rw [getD_set_ne (by omega : cc ≠ cc + 1)]
    simp [coreEmit, hcfg, intelConfig, show ¬ cc + 1 = cc by omega]
  · have hfc : firstCore (amdConfig cc 1 u s) = 0 := by
      simp [firstCore, amdConfig, AMD_ENERGY_CORE_MSR]
    have hmx : maxCore (amdConfig cc 1 u s) = cc + 1 := by
      simp [maxCore, amdConfig, AMD_ENERGY_CORE_MSR]
    unfold read_power
    rw [hfc, hmx]
    simp only [Nat.sub_zero]
    rw [List.range'_1_concat, List.foldl_append, List.foldl_cons,
      List.foldl_nil]
    simp only [Nat.zero_add]
    obtain ⟨ho, hs, hlast⟩ := amd_seg_spec cc u s raw lasts hu cc 0
      (by omega) ⟨lasts, 0, []⟩ (fun c _ => rfl)
    rw [readCore_out]
    simp only [Bool.false_eq_true, false_and, if_false]
    rw [ho, hs, hlast cc (by omega)]
    have hemitp : ∀ delta sum : ℚ,
        coreEmit (amdConfig cc 1 u s) (cc + 1) cc delta sum
          = [.pkg (delta * s), .coreSum (sum * s), .newline] := by
      intro delta sum
      simp [coreEmit, amdConfig, hu]
    rw [hemitp]
    simp
  · intro hv
    exact read_power_amd_verbose_eq cc v u s raw lasts hv
  · intro hv2
    refine read_power_first_eq (amdConfig cc v u s) raw lasts ?_
    simp only [amdConfig]
    omega
  · exact read_power_first_silent (amdConfig cc 1 u s) raw lasts
      (by simp [amdConfig])

/-- C3 amended witness: 4 physical units either vendor, verbosity 1 and 2,
AMD unit exponent 16, Intel package unit `0.5^10`. -/
theorem verbosity1_report_holds :
    ((read_power (intelConfig 4 1 ((1/2 : ℚ)^10) 1) (fun c => 1024 * c)
        (List.replicate 6 0) false).2
      = [.pkg ((convert (intelConfig 4 1 ((1/2 : ℚ)^10) 1) 4 (1024 * 4)
            - (List.replicate 6 (0:ℚ)).getD 4 0) * 1),
         .dram ((convert (intelConfig 4 1 ((1/2 : ℚ)^10) 1) (4 + 1)
              (1024 * (4 + 1))
            - (List.replicate 6 (0:ℚ)).getD (4 + 1) 0) * 1),
         .newline]) ∧
    ((read_power (amdConfig 4 1 16 1) (fun c => 1024 * c)
        (List.replicate 6 0) false).2
      = ((List.range' 0 4).map (fun c =>
            (if c = 0 then [OutItem.rule] else [])
            ++ (if c % 8 = 0 then [OutItem.coreLabel c] else [])
            ++ [OutItem.coreVal ((convert (amdConfig 4 1 16 1) c (1024 * c)
                - (List.replicate 6 (0:ℚ)).getD c 0) * 1)]
            ++ (if c % 8 = 7 ∨ c = 4 - 1 then [OutItem.newline] else [])
            ++ (if c = 4 - 1 then [OutItem.rule] else []))).flatten
        ++ [.pkg ((convert (amdConfig 4 1 16 1) 4 (1024 * 4)
              - (List.replicate 6 (0:ℚ)).getD 4 0) * 1),
            .coreSum ((((List.range' 0 4).map (fun c =>
                convert (amdConfig 4 1 16 1) c (1024 * c)
                  - (List.replicate 6 (0:ℚ)).getD c 0)).sum) * 1),
            .newline]) ∧
    ((2 : Nat) ≠ 0 →
      read_power (amdConfig 4 2 16 1) (fun c => 1024 * c)
          (List.replicate 6 0) false
        = read_power (amdConfig 4 1 16 1) (fun c => 1024 * c)
            (List.replicate 6 0) false) ∧
    (2 ≤ 2 →
      read_power (amdConfig 4 2 16 1) (fun c => 1024 * c)
          (List.replicate 6 0) true
        = read_power (amdConfig 4 2 16 1) (fun c => 1024 * c)
            (List.replicate 6 0) false) ∧
    ((read_power (amdConfig 4 1 16 1) (fun c => 1024 * c)
        (List.replicate 6 0) true).2 = []) :=
  verbosity1_report 4 16 2 ((1/2 : ℚ)^10) 1 (List.replicate 6 0)
    (fun c => 1024 * c) (by decide)

end Pmon
